import Mathlib

/-!
Verification of the topdown-grpc overload controller (Go, package `topdown`)
against its natural-language specification.

Shallow embedding conventions:
* Timestamps and durations are rationals, measured in seconds.  Go's
  `time.Time` / `time.Duration` arithmetic (`Sub`, `Seconds`, `Since`) is
  exact integer-nanosecond arithmetic re-expressed in seconds; modelling it
  with exact rationals is faithful for every value the claims touch.  The
  one float computation on the hot path, `int64(elapsed * float64(rate))`
  in `Allow`, is modelled as exact rational multiplication followed by
  truncation toward zero (`goTrunc`), which agrees with the Go code on all
  inputs where the float product is exact and in particular on every
  concrete input used below.
* Go's `map[string]*InterfaceMetrics` is modelled as an association list
  with unique keys; in-place mutation through the pointer becomes a
  functional update of the matching entry (`updateAssoc`).
* Go's zero-value map lookup `rl.slo[name]` (0 for a missing key) is
  modelled by `sloOf`, an association-list lookup defaulted to 0.
* Operations that dereference a nil `*InterfaceMetrics` or index an empty
  slice in the Go source return `Option.none` here, standing for a runtime
  panic.
* The repository ships two divergent variants of several functions
  (`topdown.go`/`learning_agent.go` versus `unnamed/part_001` and
  `unnamed/part_002`).  Both are embedded where they differ, with a
  suffix naming the variant.
* Locks (`rl.mutex`) serialize every operation in the source; the claims
  are settled against the resulting sequential semantics.
-/

/-- Association-list lookup over string keys, modelling Go map indexing. -/
def assocFind {α : Type} : List (String × α) → String → Option α
  | [], _ => none
  | p :: ps, n => if p.1 = n then some p.2 else assocFind ps n

/-- Functional update of the entry for a key, modelling in-place mutation of
the `*InterfaceMetrics` a Go map lookup returned. -/
def updateAssoc {α : Type} (l : List (String × α)) (n : String) (v : α) :
    List (String × α) :=
  l.map fun p => if p.1 = n then (p.1, v) else p

/-- Per-method mutable record, from `InterfaceMetrics` in `topdown.go`
(lines 18-27; the copy in `unnamed/part_001` lines 11-20 is identical).
Durations (`latencyHistory`, `lastTailLatency95th`) and the `lastRefill`
timestamp are rationals in seconds; counters and bucket fields are
integers as in the `int64` source fields. -/
structure InterfaceMetrics where
  maxTokens : ℤ
  tokens : ℤ
  refillRate : ℤ
  lastRefill : ℚ
  goodputCounter : ℤ
  sloViolationCounter : ℤ
  latencyHistory : List ℚ
  lastTailLatency95th : ℚ
  deriving DecidableEq

/-- Process-wide controller state, from `TopDownRL` in `topdown.go`
(lines 30-35).  The mutex is not part of the sequential state and the
`Debug` flag only gates logging, so neither is carried. -/
structure TopDownRL where
  interfaces : List (String × InterfaceMetrics)
  slo : List (String × ℚ)
  deriving DecidableEq

/-- Constructor, from `NewTopDownRL` in `topdown.go` lines 38-58: every
key of the SLO map gets a bucket with `Tokens = MaxTokens` and
`LastRefill = time.Now()` (passed here as `now`). -/
def newTopDownRL (slo : List (String × ℚ)) (maxTokens refillRate : ℤ)
    (now : ℚ) : TopDownRL :=
  { interfaces :=
      slo.map fun p =>
        (p.1,
          { maxTokens := maxTokens
            tokens := maxTokens
            refillRate := refillRate
            lastRefill := now
            goodputCounter := 0
            sloViolationCounter := 0
            latencyHistory := []
            lastTailLatency95th := 0 })
    slo := slo }

/-- SLO lookup `rl.slo[methodName]`, Go map semantics: zero value 0 for a
missing key (`topdown.go` line 109, `unnamed/part_001` line 97). -/
def sloOf (rl : TopDownRL) (name : String) : ℚ :=
  (assocFind rl.slo name).getD 0

/-- Go's `int64(x)` conversion of a float: truncation toward zero. -/
def goTrunc (q : ℚ) : ℤ :=
  if 0 ≤ q then ⌊q⌋ else -⌊-q⌋

/-- Refill phase of `Allow` (`topdown.go` lines 84-92, identically
`unnamed/part_001` lines 76-84): tokens are topped up and `LastRefill`
advanced only when the truncated product is strictly positive. -/
def refillStep (m : InterfaceMetrics) (now : ℚ) : InterfaceMetrics :=
  let r : ℤ := goTrunc ((now - m.lastRefill) * (m.refillRate : ℚ))
  if 0 < r then
    { m with tokens := min (m.tokens + r) m.maxTokens, lastRefill := now }
  else m

/-- Decision phase of `Allow` (`topdown.go` lines 94-98) after the refill:
admit and decrement when a token is available. -/
def allowStep (m : InterfaceMetrics) (now : ℚ) : InterfaceMetrics × Bool :=
  let m1 := refillStep m now
  if 0 < m1.tokens then ({ m1 with tokens := m1.tokens - 1 }, true)
  else (m1, false)

/-- Controller-level `Allow` of the `topdown.go` variant (lines 79-99):
`getInterfaceMetrics` returns nil for an unknown method (lines 62-76) and
the subsequent field accesses dereference it, so the unknown-method case
is a panic, modelled as `none`. -/
def allowRL (rl : TopDownRL) (name : String) (now : ℚ) :
    Option (TopDownRL × Bool) :=
  match assocFind rl.interfaces name with
  | none => none
  | some m =>
    let s := allowStep m now
    some ({ rl with interfaces := updateAssoc rl.interfaces name s.1 }, s.2)

/-- Metrics-recorder update on one `InterfaceMetrics`, from `PostProcess`
(`topdown.go` lines 102-116, `unnamed/part_001` lines 94-104): classify
against the SLO value, then append the latency to the history. -/
def postProcessM (slo : ℚ) (latency : ℚ) (m : InterfaceMetrics) :
    InterfaceMetrics :=
  let m1 :=
    if latency ≤ slo then { m with goodputCounter := m.goodputCounter + 1 }
    else { m with sloViolationCounter := m.sloViolationCounter + 1 }
  { m1 with latencyHistory := m1.latencyHistory ++ [latency] }

/-- Controller-level `PostProcess` of the `topdown.go` variant: unknown
method means a nil dereference (panic), modelled as `none`. -/
def postProcessRL (rl : TopDownRL) (latency : ℚ) (name : String) :
    Option TopDownRL :=
  match assocFind rl.interfaces name with
  | none => none
  | some m =>
    some { rl with
      interfaces :=
        updateAssoc rl.interfaces name (postProcessM (sloOf rl name) latency m) }

/-- On-demand creation path of the `unnamed/part_001` variant
(`getOrCreateInterfaceMetrics`, lines 54-68) with its hard-coded defaults
`MaxTokens = 10000`, `Tokens = 100`, `RefillRate = 1000`. -/
def getOrCreateRL (rl : TopDownRL) (name : String) (now : ℚ) : TopDownRL :=
  match assocFind rl.interfaces name with
  | some _ => rl
  | none =>
    { rl with
      interfaces :=
        (name,
          { maxTokens := 10000
            tokens := 100
            refillRate := 1000
            lastRefill := now
            goodputCounter := 0
            sloViolationCounter := 0
            latencyHistory := []
            lastTailLatency95th := 0 }) :: rl.interfaces }

/-- Controller-level `PostProcess` of the `unnamed/part_001` variant
(lines 94-104): resolve or create the method state, then record. -/
def postProcessP1 (rl : TopDownRL) (latency : ℚ) (name : String) (now : ℚ) :
    TopDownRL :=
  match assocFind (getOrCreateRL rl name now).interfaces name with
  | none => getOrCreateRL rl name now
  | some m =>
    { getOrCreateRL rl name now with
      interfaces :=
        updateAssoc (getOrCreateRL rl name now).interfaces name
          (postProcessM (sloOf (getOrCreateRL rl name now) name) latency m) }

/-- Index selection of `calculateTailLatency95th` (`topdown.go` lines
130-133): `index := int(float64(len) * 0.95)`, clamped to `len - 1` when it
reaches `len`.  The float product is modelled as the exact rational
`len * 95/100` truncated (it is non-negative, so truncation is floor). -/
def p95Index (n : ℕ) : ℕ :=
  let i := (goTrunc ((n : ℚ) * (95 / 100))).toNat
  if n ≤ i then n - 1 else i

/-- Per-method body of `calculateTailLatency95th` (`topdown.go` lines
119-139, identically `unnamed/part_001` lines 107-127).  On an empty
history it returns 0 WITHOUT touching the stored `LastTailLatency95th`;
otherwise it sorts the history ascending, stores the entry at the clamped
95th-percentile index, and truncates the history to length 0. -/
def calcTail95 (m : InterfaceMetrics) : InterfaceMetrics × ℚ :=
  if m.latencyHistory = [] then (m, 0)
  else
    let sorted := List.insertionSort (· ≤ ·) m.latencyHistory
    let v := sorted.getD (p95Index sorted.length) 0
    ({ m with lastTailLatency95th := v, latencyHistory := [] }, v)

/-- State effect of one ticker pass on one method. -/
def tickMetrics (m : InterfaceMetrics) : InterfaceMetrics :=
  (calcTail95 m).1

/-- One firing of the once-per-second ticker (`StartMetricsCollection`,
`topdown.go` lines 142-155): under the controller lock it runs
`calculateTailLatency95th` for every interface — and nothing else. -/
def tickAll (rl : TopDownRL) : TopDownRL :=
  { rl with interfaces := rl.interfaces.map fun p => (p.1, tickMetrics p.2) }

/-- Per-interface `GetMetrics` of the `learning_agent.go` variant (lines
104-123): `atomic.SwapInt64(&metrics.GoodputCounter, 0)` — the read
returns the live counter and resets it to 0; the tail latency is read
without modification.  An unknown method is a nil dereference (`none`).
The `unnamed/part_001` variant (lines 146-151) differs only in resolving
the method with `getOrCreateInterfaceMetrics`. -/
def getMetricsRL (rl : TopDownRL) (name : String) :
    Option ((ℤ × ℚ) × TopDownRL) :=
  match assocFind rl.interfaces name with
  | none => none
  | some m =>
    some ((m.goodputCounter, m.lastTailLatency95th),
      { rl with
        interfaces :=
          updateAssoc rl.interfaces name { m with goodputCounter := 0 } })

/-- Per-interface `SetRateLimit` of the `learning_agent.go` variant (lines
126-140): assigns the new value to `RefillRate` only. -/
def setRateAgentM (m : InterfaceMetrics) (rate : ℤ) : InterfaceMetrics :=
  { m with refillRate := rate }

/-- Per-interface `SetRateLimit` of the `unnamed/part_001` variant (lines
154-157): it assigns the new value to `MaxTokens`, NOT to `RefillRate`. -/
def setRateP1M (m : InterfaceMetrics) (rate : ℤ) : InterfaceMetrics :=
  { m with maxTokens := rate }

/-- HTTP verb of a control-plane request. -/
inductive HttpVerb where
  | get
  | post
  | other
  deriving DecidableEq

/-- The `/metrics` handler `HandleGetMetrics` (`learning_agent.go` lines
186-228): 405 on a non-GET verb, 400 when the `method` query parameter is
missing (Go's `Query().Get` yields `""`), otherwise 200 with the
`(goodput, latency)` pair from `GetMetrics`.  `none` is the nil-deref
panic inherited from `GetMetrics` on an unknown method. -/
def handleGetMetricsRL (rl : TopDownRL) (verb : HttpVerb)
    (methodParam : String) :
    Option ((ℕ × Option (ℤ × ℚ)) × TopDownRL) :=
  match verb with
  | HttpVerb.get =>
    if methodParam = "" then some ((400, none), rl)
    else
      match getMetricsRL rl methodParam with
      | none => none
      | some (body, rl1) => some ((200, some body), rl1)
  | _ => some ((405, none), rl)

/-- Call metadata visible to the interceptor.  `methodVals` is
`md["method"]` (a Go nil slice — `[]` — when the key is absent), and
`timestampParsed` is the semantic content of `md["timestamp"]`: `some t`
when the entry exists and `time.Parse(time.RFC3339, ·)` succeeds with
instant `t`, `none` when the entry is absent, empty or unparsable. -/
structure CallMeta where
  methodVals : List String
  timestampParsed : Option ℚ
  deriving DecidableEq

/-- Helper `getMethodName` (`utils.go` lines 60-66): the SAFE extraction,
returning `""` when the key is absent or the value list empty.  It is
defined in the source but never called by `UnaryInterceptor`. -/
def getMethodName (md : Option CallMeta) : String :=
  match md with
  | none => ""
  | some c =>
    match c.methodVals with
    | [] => ""
    | v :: _ => v

/-- Helper `extractStartTime` (`utils.go` lines 76-94): the client
timestamp when present and parsable, otherwise `now`.  Also defined in
the source but never called by `UnaryInterceptor`. -/
def extractStartTime (md : Option CallMeta) (now : ℚ) : ℚ :=
  match md with
  | none => now
  | some c =>
    match c.timestampParsed with
    | none => now
    | some t => t

/-- Outcome of one interception. -/
inductive InterceptOutcome where
  | panicked
  | errInvalidArgument
  | errResourceExhausted
  | completed (handlerErr : Bool)
  deriving DecidableEq

/-- Result of one interception: outcome, whether the downstream handler
ran, and the controller state afterwards. -/
structure InterceptResult where
  outcome : InterceptOutcome
  handlerInvoked : Bool
  finalState : TopDownRL
  deriving DecidableEq

/-- The unary interceptor (`topdown.go` lines 158-183).  Faithful to the
source: missing metadata fails with invalid-argument; otherwise
`md["method"][0]` is indexed directly, which PANICS on an absent key or
empty value list; `startTime := time.Now()` is the interception entry
instant `now` (the `timestamp` metadata is never consulted); an admitted
call runs the handler (whose error status `handlerErr` is passed through
unchanged), then records `latency := time.Since(startTime) = now2 - now`
via `PostProcess`, whose nil dereference on an unknown method is again a
panic. -/
def unaryInterceptor (rl : TopDownRL) (md : Option CallMeta)
    (now now2 : ℚ) (handlerErr : Bool) : InterceptResult :=
  match md with
  | none =>
    { outcome := InterceptOutcome.errInvalidArgument
      handlerInvoked := false, finalState := rl }
  | some c =>
    match c.methodVals with
    | [] =>
      { outcome := InterceptOutcome.panicked
        handlerInvoked := false, finalState := rl }
    | name :: _ =>
      match allowRL rl name now with
      | none =>
        { outcome := InterceptOutcome.panicked
          handlerInvoked := false, finalState := rl }
      | some (rl1, false) =>
        { outcome := InterceptOutcome.errResourceExhausted
          handlerInvoked := false, finalState := rl1 }
      | some (rl1, true) =>
        match postProcessRL rl1 (now2 - now) name with
        | none =>
          { outcome := InterceptOutcome.panicked
            handlerInvoked := true, finalState := rl1 }
        | some rl2 =>
          { outcome := InterceptOutcome.completed handlerErr
            handlerInvoked := true, finalState := rl2 }

/-- Bucket-bounds invariant of the specification: the observable token
count stays within the capacity. -/
def BucketInv (m : InterfaceMetrics) : Prop :=
  0 ≤ m.tokens ∧ m.tokens ≤ m.maxTokens

instance (m : InterfaceMetrics) : Decidable (BucketInv m) := by
  unfold BucketInv; infer_instance

example :
    (allowStep
      { maxTokens := 2, tokens := 2, refillRate := 0, lastRefill := 0
        goodputCounter := 0, sloViolationCounter := 0, latencyHistory := []
        lastTailLatency95th := 0 } 5).2 = true := by
  norm_num [allowStep, refillStep, goTrunc]

example : goTrunc ((3 : ℚ) * (95 / 100)) = 2 := by norm_num [goTrunc]

example : p95Index 5 = 4 := by norm_num [p95Index, goTrunc]; rfl

example : p95Index 1 = 0 := by norm_num [p95Index, goTrunc]

/-! Helper lemmas shared by several claim theorems. -/

theorem assocFind_update_self {α : Type} (l : List (String × α)) (n : String)
    (v : α) (h : (assocFind l n).isSome) :
    assocFind (updateAssoc l n v) n = some v := by
  induction l with
  | nil => simp [assocFind] at h
  | cons p ps ih =>
    by_cases hp : p.1 = n
    · simp [assocFind, updateAssoc, hp]
    · simp [assocFind, updateAssoc, hp] at h ⊢
      exact ih h

theorem assocFind_update_ne {α : Type} (l : List (String × α)) (n k : String)
    (v : α) (hk : k ≠ n) :
    assocFind (updateAssoc l n v) k = assocFind l k := by
  induction l with
  | nil => rfl
  | cons p ps ih =>
    simp only [updateAssoc, List.map_cons] at ih ⊢
    rcases p with ⟨a, b⟩
    by_cases hp : a = n
    · subst hp
      simp [assocFind, Ne.symm hk, ih]
    · by_cases hq : a = k <;> simp [assocFind, hp, hq, ih, hk]

theorem goTrunc_of_nonneg {q : ℚ} (h : 0 ≤ q) : goTrunc q = ⌊q⌋ := by
  simp [goTrunc, h]

theorem refillStep_rate_zero (m : InterfaceMetrics) (now : ℚ)
    (h : m.refillRate = 0) : refillStep m now = m := by
  simp [refillStep, h, goTrunc]

theorem refillStep_fields (m : InterfaceMetrics) (now : ℚ) :
    (refillStep m now).maxTokens = m.maxTokens ∧
    (refillStep m now).refillRate = m.refillRate ∧
    (refillStep m now).goodputCounter = m.goodputCounter ∧
    (refillStep m now).sloViolationCounter = m.sloViolationCounter ∧
    (refillStep m now).latencyHistory = m.latencyHistory ∧
    (refillStep m now).lastTailLatency95th = m.lastTailLatency95th := by
  unfold refillStep
  by_cases hr : 0 < goTrunc ((now - m.lastRefill) * (m.refillRate : ℚ)) <;>
    simp [hr]

theorem bucketInv_refillStep (m : InterfaceMetrics) (now : ℚ)
    (h : BucketInv m) : BucketInv (refillStep m now) := by
  obtain ⟨h0, h1⟩ := h
  unfold refillStep
  by_cases hr : 0 < goTrunc ((now - m.lastRefill) * (m.refillRate : ℚ))
  · simp only [hr, if_pos]
    exact ⟨le_min (by omega) (by omega), min_le_right _ _⟩
  · simp only [hr, if_neg, not_false_iff]
    exact ⟨h0, h1⟩

theorem refillStep_tokens_nonneg (m : InterfaceMetrics) (now : ℚ)
    (h : BucketInv m) : 0 ≤ (refillStep m now).tokens :=
  (bucketInv_refillStep m now h).1

theorem bucketInv_allowStep (m : InterfaceMetrics) (now : ℚ)
    (h : BucketInv m) : BucketInv (allowStep m now).1 := by
  obtain ⟨ha, hb⟩ := bucketInv_refillStep m now h
  unfold allowStep BucketInv
  by_cases ht : 0 < (refillStep m now).tokens <;> simp [ht] <;>
    constructor <;> omega

theorem bucketInv_postProcessM (slo latency : ℚ) (m : InterfaceMetrics)
    (h : BucketInv m) : BucketInv (postProcessM slo latency m) := by
  unfold postProcessM
  by_cases hc : latency ≤ slo <;> simp [hc] <;> exact h

theorem bucketInv_tickMetrics (m : InterfaceMetrics) (h : BucketInv m) :
    BucketInv (tickMetrics m) := by
  unfold tickMetrics calcTail95
  by_cases he : m.latencyHistory = [] <;> simp [he] <;> exact h

theorem bucketInv_setRateAgentM (m : InterfaceMetrics) (r : ℤ)
    (h : BucketInv m) : BucketInv (setRateAgentM m r) := by
  simpa [setRateAgentM, BucketInv] using h

theorem assocFind_mapSnd {α β : Type} (f : α → β) (l : List (String × α))
    (n : String) :
    assocFind (l.map fun p => (p.1, f p.2)) n = (assocFind l n).map f := by
  induction l with
  | nil => rfl
  | cons p ps ih => by_cases hp : p.1 = n <;> simp [assocFind, hp, ih]

theorem p95Index_eq_min (n : ℕ) (h : 1 ≤ n) :
    p95Index n = min ((⌊(n : ℚ) * (95 / 100)⌋).toNat) (n - 1) := by
  unfold p95Index
  rw [goTrunc_of_nonneg (by positivity)]
  show (if n ≤ (⌊(n : ℚ) * (95 / 100)⌋).toNat then n - 1
        else (⌊(n : ℚ) * (95 / 100)⌋).toNat) = _
  split_ifs with hc <;> omega

/-! Concrete states used by the claim theorems. -/

/-- Bucket as in end-to-end scenario 1 of the spec: capacity 2, full,
refill rate 0. -/
def mBase : InterfaceMetrics :=
  { maxTokens := 2, tokens := 2, refillRate := 0, lastRefill := 0
    goodputCounter := 0, sloViolationCounter := 0, latencyHistory := []
    lastTailLatency95th := 0 }

/-- Method state as `getOrCreateInterfaceMetrics` builds it on demand
(`unnamed/part_001` lines 58-66). -/
def mDemand : InterfaceMetrics :=
  { maxTokens := 10000, tokens := 100, refillRate := 1000, lastRefill := 0
    goodputCounter := 0, sloViolationCounter := 0, latencyHistory := []
    lastTailLatency95th := 0 }

/-- Bucket with capacity 2 and refill rate 10, for the set-rate claims. -/
def mC3 : InterfaceMetrics :=
  { maxTokens := 2, tokens := 2, refillRate := 10, lastRefill := 0
    goodputCounter := 0, sloViolationCounter := 0, latencyHistory := []
    lastTailLatency95th := 0 }

/-- Controller with one registered method A (SLO 100), fresh from the
constructor with capacity 2 and refill rate 0. -/
def rlC4 : TopDownRL := newTopDownRL [("A", 100)] 2 0 0

/-- Controller whose method A has accumulated goodput 5 in the current
interval and an empty latency reservoir. -/
def rlTick : TopDownRL :=
  { interfaces :=
      [("A",
        { maxTokens := 2, tokens := 2, refillRate := 0, lastRefill := 0
          goodputCounter := 5, sloViolationCounter := 0, latencyHistory := []
          lastTailLatency95th := 0 })]
    slo := [("A", 100)] }

/-- Controller whose method A has goodput counter 5 and last tail
latency 80, ready to be polled. -/
def rlPoll : TopDownRL :=
  { interfaces :=
      [("A",
        { maxTokens := 2, tokens := 2, refillRate := 0, lastRefill := 0
          goodputCounter := 5, sloViolationCounter := 0, latencyHistory := []
          lastTailLatency95th := 80 })]
    slo := [("A", 100)] }

/-- Method state whose reservoir is empty while the stored tail latency
from the previous tick is 80. -/
def mTail80 : InterfaceMetrics :=
  { maxTokens := 2, tokens := 2, refillRate := 0, lastRefill := 0
    goodputCounter := 0, sloViolationCounter := 0, latencyHistory := []
    lastTailLatency95th := 80 }

/-- Minimal state of the aggregate (non-per-interface) controller variant:
just the two fields `saveMetrics` (`utils.go` lines 69-73) touches.  The
variant's struct declaration is not among the source files; the fields are
taken from the accesses in `utils.go` and `unnamed/part_002`. -/
structure GlobalRL where
  currentGoodput : ℤ
  goodputCounter : ℤ
  deriving DecidableEq

/-- Embedding of `saveMetrics` (`utils.go` lines 69-73): snapshot the
counter into `currentGoodput` and reset it. -/
def saveMetricsG (g : GlobalRL) : GlobalRL :=
  { currentGoodput := g.goodputCounter, goodputCounter := 0 }

/-! Claim C1. -/

/-- C1, counterexample: the claim says the once-per-second tick snapshots
`goodput_counter` into `current_goodput` and resets the counter to 0.  On
the controller `rlTick`, whose method A has `goodput_counter = 5`, the
embedded ticker pass `tickAll` (exactly `StartMetricsCollection`'s loop
body, which only calls `calculateTailLatency95th`) leaves the counter at
5, not 0. -/
theorem c1_counterexample :
    ((assocFind (tickAll rlTick).interfaces "A").map
      InterfaceMetrics.goodputCounter) = some 5 ∧ ((5 : ℤ) ≠ 0) := by
  decide

/-- C1, amended: the tick leaves `goodput_counter` (and every bucket
field) of every method unchanged — it only recomputes the tail latency
and clears the reservoir.  The snapshot-and-reset is instead the single
swap performed by `GetMetrics`, which returns the accumulated counter and
zeroes it; `saveMetrics` implements the spec's snapshot for the aggregate
controller variant but is called by no ticker in the source. -/
theorem c1_tick_goodput :
    (∀ m : InterfaceMetrics,
      (tickMetrics m).goodputCounter = m.goodputCounter ∧
      (tickMetrics m).sloViolationCounter = m.sloViolationCounter ∧
      (tickMetrics m).tokens = m.tokens ∧
      (tickMetrics m).maxTokens = m.maxTokens ∧
      (tickMetrics m).refillRate = m.refillRate ∧
      (tickMetrics m).lastRefill = m.lastRefill) ∧
    (∀ (rl : TopDownRL) (name : String) (m : InterfaceMetrics),
      assocFind rl.interfaces name = some m →
      assocFind (tickAll rl).interfaces name = some (tickMetrics m)) ∧
    (∀ (rl : TopDownRL) (name : String) (m : InterfaceMetrics),
      assocFind rl.interfaces name = some m →
      getMetricsRL rl name =
        some ((m.goodputCounter, m.lastTailLatency95th),
          { rl with
            interfaces :=
              updateAssoc rl.interfaces name { m with goodputCounter := 0 } })) ∧
    (∀ g : GlobalRL,
      (saveMetricsG g).currentGoodput = g.goodputCounter ∧
      (saveMetricsG g).goodputCounter = 0) := by
  refine ⟨?_, ?_, ?_, ?_⟩
  · intro m
    unfold tickMetrics calcTail95
    by_cases he : m.latencyHistory = [] <;> simp [he]
  · intro rl name m hm
    unfold tickAll
    rw [assocFind_mapSnd, hm]
    rfl
  · intro rl name m hm
    unfold getMetricsRL
    rw [hm]
  · intro g
    exact ⟨rfl, rfl⟩

/-- C1 witness: the amended theorem applied to the concrete controller
`rlTick` and its registered method A. -/
theorem c1_tick_goodput_witness :
    getMetricsRL rlTick "A" =
      some ((5, 0),
        { rlTick with
          interfaces :=
            updateAssoc rlTick.interfaces "A"
              { maxTokens := 2, tokens := 2, refillRate := 0, lastRefill := 0
                goodputCounter := 0, sloViolationCounter := 0
                latencyHistory := [], lastTailLatency95th := 0 } }) :=
  c1_tick_goodput.2.2.1 rlTick "A"
    { maxTokens := 2, tokens := 2, refillRate := 0, lastRefill := 0
      goodputCounter := 5, sloViolationCounter := 0, latencyHistory := []
      lastTailLatency95th := 0 } (by decide)

/-! Claim C2. -/

/-- C2, counterexample: the claim says repeating GET /metrics without an
intervening tick or recorded request returns the same goodput value.  On
`rlPoll` (method A: counter 5, tail latency 80) the first GET returns
goodput 5, and an immediately repeated GET on the resulting state returns
goodput 0 — the read consumed the counter. -/
theorem c2_counterexample :
    ((handleGetMetricsRL rlPoll HttpVerb.get "A").map fun p => p.1) =
      some (200, some (5, 80)) ∧
    (((handleGetMetricsRL rlPoll HttpVerb.get "A").bind fun p =>
        handleGetMetricsRL p.2 HttpVerb.get "A").map fun p => p.1) =
      some (200, some (0, 80)) ∧
    ¬ (((0 : ℤ), (80 : ℚ)) = ((5 : ℤ), (80 : ℚ))) := by
  decide

/-- C2, amended: a GET /metrics for a registered method responds 200 with
goodput equal to the LIVE `goodput_counter` (everything accumulated since
the previous read) and latency equal to `last_tail_latency_p95`; the read
swaps the counter to 0, so an immediately repeated GET without intervening
activity responds 200 with goodput 0 and the same latency. -/
theorem c2_get_metrics (rl : TopDownRL) (name : String)
    (m : InterfaceMetrics) (hname : name ≠ "")
    (hm : assocFind rl.interfaces name = some m) :
    handleGetMetricsRL rl HttpVerb.get name =
      some ((200, some (m.goodputCounter, m.lastTailLatency95th)),
        { rl with
          interfaces :=
            updateAssoc rl.interfaces name { m with goodputCounter := 0 } }) ∧
    handleGetMetricsRL
        { rl with
          interfaces :=
            updateAssoc rl.interfaces name { m with goodputCounter := 0 } }
        HttpVerb.get name =
      some ((200, some (0, m.lastTailLatency95th)),
        { rl with
          interfaces :=
            updateAssoc
              (updateAssoc rl.interfaces name { m with goodputCounter := 0 })
              name { m with goodputCounter := 0 } }) := by
  have h2 : assocFind
      (updateAssoc rl.interfaces name { m with goodputCounter := 0 }) name =
      some { m with goodputCounter := 0 } :=
    assocFind_update_self rl.interfaces name _ (by rw [hm]; rfl)
  constructor
  · unfold handleGetMetricsRL getMetricsRL
    rw [if_neg hname, hm]
  · unfold handleGetMetricsRL getMetricsRL
    rw [if_neg hname, h2]

/-- C2 witness: the amended theorem applied to the concrete controller
`rlPoll` and its method A. -/
theorem c2_get_metrics_witness :
    handleGetMetricsRL rlPoll HttpVerb.get "A" =
      some ((200, some (5, 80)),
        { rlPoll with
          interfaces :=
            updateAssoc rlPoll.interfaces "A"
              { maxTokens := 2, tokens := 2, refillRate := 0, lastRefill := 0
                goodputCounter := 0, sloViolationCounter := 0
                latencyHistory := [], lastTailLatency95th := 80 } }) :=
  (c2_get_metrics rlPoll "A"
    { maxTokens := 2, tokens := 2, refillRate := 0, lastRefill := 0
      goodputCounter := 5, sloViolationCounter := 0, latencyHistory := []
      lastTailLatency95th := 80 } (by decide) (by decide)).1

/-! Claim C3. -/

/-- C3: evaluation of both `SetRateLimit` variants at the failing input.
The claim says POST /set_rate sets `refill_rate` to the request value and
never modifies the bucket capacity.  The `learning_agent.go` variant does
exactly that, but the `unnamed/part_001` variant assigns the value to
`MaxTokens` and leaves `RefillRate` untouched: on a method state with
capacity 2 and refill rate 10, setting rate 50 through it yields capacity
50 and refill rate still 10. -/
theorem c3_set_rate_eval :
    (setRateP1M mC3 50).maxTokens = 50 ∧
    (setRateP1M mC3 50).refillRate = 10 ∧
    (setRateAgentM mC3 50).refillRate = 50 ∧
    (setRateAgentM mC3 50).maxTokens = 2 := by
  decide

/-! Claim C7. -/

/-- C7, counterexample: the claim says every operation, including a
set_rate that lowers the rate, preserves 0 ≤ tokens ≤ max_tokens.  A
method state created on demand (tokens 100, capacity 10000, rate 1000)
satisfies the invariant, but lowering the rate to 50 through the
`unnamed/part_001` `SetRateLimit` (which reassigns `MaxTokens`) leaves
tokens = 100 above the new capacity 50. -/
theorem c7_counterexample :
    BucketInv mDemand ∧ ¬ BucketInv (setRateP1M mDemand 50) := by
  decide

/-- C7, amended: `allow`, `post_process`, the tick, and the
`learning_agent.go` set_rate (which updates only the refill rate) each
preserve 0 ≤ tokens ≤ max_tokens of the method state they act on; the
`unnamed/part_001` set_rate variant is excluded because it reassigns the
capacity and can drop it below the current token count. -/
theorem c7_invariant_preservation :
    (∀ (m : InterfaceMetrics) (now : ℚ),
      BucketInv m → BucketInv (allowStep m now).1) ∧
    (∀ (slo lat : ℚ) (m : InterfaceMetrics),
      BucketInv m → BucketInv (postProcessM slo lat m)) ∧
    (∀ m : InterfaceMetrics, BucketInv m → BucketInv (tickMetrics m)) ∧
    (∀ (m : InterfaceMetrics) (r : ℤ),
      BucketInv m → BucketInv (setRateAgentM m r)) :=
  ⟨bucketInv_allowStep, bucketInv_postProcessM, bucketInv_tickMetrics,
    bucketInv_setRateAgentM⟩

/-- C7 witness: the amended theorem applied at concrete states. -/
theorem c7_invariant_preservation_witness :
    BucketInv (allowStep mBase 5).1 ∧ BucketInv (setRateAgentM mBase 7) :=
  ⟨c7_invariant_preservation.1 mBase 5 (by decide),
    c7_invariant_preservation.2.2.2 mBase 7 (by decide)⟩

/-! Claim C8. -/

/-- C8, counterexample: the claim says that after a tick whose reservoir
was empty, `last_tail_latency_p95` equals 0.  On `mTail80` (empty
reservoir, stored tail latency 80) the embedded tick returns the state
unchanged: `calculateTailLatency95th` returns 0 early WITHOUT storing it,
so the field still reads 80. -/
theorem c8_counterexample :
    mTail80.latencyHistory = [] ∧
    tickMetrics mTail80 = mTail80 ∧
    (tickMetrics mTail80).lastTailLatency95th = 80 ∧ ((80 : ℚ) ≠ 0) := by
  decide

/-- C8, amended: after a tick whose reservoir held a non-empty multiset v,
`last_tail_latency_p95` equals the element at index
min(floor(len(v) * 0.95), len(v) - 1) of v sorted ascending and the
reservoir is cleared; after a tick whose reservoir was empty the state is
entirely unchanged — in particular `last_tail_latency_p95` RETAINS its
previous value instead of being reset to 0 (the reservoir trivially still
has length 0). -/
theorem c8_tail_latency (m : InterfaceMetrics) :
    (m.latencyHistory = [] → tickMetrics m = m) ∧
    (m.latencyHistory ≠ [] →
      (tickMetrics m).latencyHistory = [] ∧
      (∀ s : List ℚ, s.Perm m.latencyHistory → s.Sorted (· ≤ ·) →
        (tickMetrics m).lastTailLatency95th =
          s.getD (min ((⌊(s.length : ℚ) * (95 / 100)⌋).toNat)
            (s.length - 1)) 0) ∧
      (tickMetrics m).goodputCounter = m.goodputCounter ∧
      (tickMetrics m).tokens = m.tokens) := by
  constructor
  · intro he
    simp [tickMetrics, calcTail95, he]
  · intro he
    refine ⟨?_, ?_, ?_, ?_⟩
    · simp [tickMetrics, calcTail95, he]
    · intro s hperm hsort
      have hts : s = List.insertionSort (· ≤ ·) m.latencyHistory :=
        List.eq_of_perm_of_sorted
          (hperm.trans (List.perm_insertionSort _ _).symm) hsort
          (List.sorted_insertionSort _ _)
      have hlen : 1 ≤ (List.insertionSort (· ≤ ·) m.latencyHistory).length := by
        rw [List.length_insertionSort]
        exact List.length_pos.2 he
      subst hts
      simp only [tickMetrics, calcTail95, he, if_neg, not_false_iff]
      rw [p95Index_eq_min _ hlen]
    · simp [tickMetrics, calcTail95, he]
    · simp [tickMetrics, calcTail95, he]

/-- C8 witness: the amended theorem applied to a method state whose
reservoir holds the two latencies 30 and 10; the sorted reservoir is
[10, 30], the selected index is min(floor(2*0.95), 1) = 1, and the stored
tail latency is 30. -/
theorem c8_tail_latency_witness :
    (tickMetrics
      { maxTokens := 2, tokens := 2, refillRate := 0, lastRefill := 0
        goodputCounter := 0, sloViolationCounter := 0
        latencyHistory := [30, 10], lastTailLatency95th := 0 }).latencyHistory
      = [] ∧
    (tickMetrics
      { maxTokens := 2, tokens := 2, refillRate := 0, lastRefill := 0
        goodputCounter := 0, sloViolationCounter := 0
        latencyHistory := [30, 10],
        lastTailLatency95th := 0 }).lastTailLatency95th =
      List.getD [(10 : ℚ), 30]
        (min ((⌊((List.length [(10 : ℚ), 30] : ℕ) : ℚ) * (95 / 100)⌋).toNat)
          (List.length [(10 : ℚ), 30] - 1)) 0 := by
  have h := (c8_tail_latency
    { maxTokens := 2, tokens := 2, refillRate := 0, lastRefill := 0
      goodputCounter := 0, sloViolationCounter := 0
      latencyHistory := [30, 10], lastTailLatency95th := 0 }).2 (by decide)
  exact ⟨h.1, h.2.1 [10, 30] (by decide) (by decide)⟩

/-! Claim C9. -/

/-- C9: every `post_process(method, latency)` increments exactly one of
the two counters — the goodput counter when latency ≤ slo[method], the
violation counter otherwise — appends the latency to the reservoir, and
leaves every other field of the method state unchanged; at controller
level the classification threshold is exactly `sloOf`, the Go lookup
`rl.slo[methodName]`. -/
theorem c9_post_process :
    (∀ (slo lat : ℚ) (m : InterfaceMetrics),
      (postProcessM slo lat m).goodputCounter +
          (postProcessM slo lat m).sloViolationCounter =
        m.goodputCounter + m.sloViolationCounter + 1 ∧
      (lat ≤ slo →
        (postProcessM slo lat m).goodputCounter = m.goodputCounter + 1 ∧
        (postProcessM slo lat m).sloViolationCounter =
          m.sloViolationCounter) ∧
      (¬ lat ≤ slo →
        (postProcessM slo lat m).sloViolationCounter =
          m.sloViolationCounter + 1 ∧
        (postProcessM slo lat m).goodputCounter = m.goodputCounter) ∧
      (postProcessM slo lat m).latencyHistory = m.latencyHistory ++ [lat] ∧
      (postProcessM slo lat m).tokens = m.tokens ∧
      (postProcessM slo lat m).maxTokens = m.maxTokens ∧
      (postProcessM slo lat m).refillRate = m.refillRate ∧
      (postProcessM slo lat m).lastRefill = m.lastRefill ∧
      (postProcessM slo lat m).lastTailLatency95th =
        m.lastTailLatency95th) ∧
    (∀ (rl : TopDownRL) (lat : ℚ) (name : String) (m : InterfaceMetrics),
      assocFind rl.interfaces name = some m →
      postProcessRL rl lat name =
        some { rl with
          interfaces :=
            updateAssoc rl.interfaces name
              (postProcessM (sloOf rl name) lat m) }) := by
  constructor
  · intro slo lat m
    unfold postProcessM
    by_cases hc : lat ≤ slo <;> simp [hc] <;> omega
  · intro rl lat name m hm
    unfold postProcessRL
    rw [hm]

/-- C9 witness: the theorem applied at a goodput-classifying call (latency
30 against SLO 100) and at the controller level on `rlTick`. -/
theorem c9_post_process_witness :
    (postProcessM 100 30 mBase).goodputCounter = mBase.goodputCounter + 1 ∧
    postProcessRL rlTick 30 "A" =
      some { rlTick with
        interfaces :=
          updateAssoc rlTick.interfaces "A"
            (postProcessM (sloOf rlTick "A") 30
              { maxTokens := 2, tokens := 2, refillRate := 0, lastRefill := 0
                goodputCounter := 5, sloViolationCounter := 0
                latencyHistory := [], lastTailLatency95th := 0 }) } :=
  ⟨((c9_post_process.1 100 30 mBase).2.1 (by decide)).1,
    c9_post_process.2 rlTick 30 "A"
      { maxTokens := 2, tokens := 2, refillRate := 0, lastRefill := 0
        goodputCounter := 5, sloViolationCounter := 0
        latencyHistory := [], lastTailLatency95th := 0 } (by decide)⟩

/-! Claim C10. -/

/-- C10: for a method name that is not a key of the SLO map, the Go map
lookup yields the zero duration, so the `unnamed/part_001` PostProcess on
a state created on demand classifies every strictly positive latency as a
violation: the violation counter is incremented, the latency is appended,
and the goodput counter of that method is left exactly as it was. -/
theorem c10_demand_slo_zero (rl : TopDownRL) (name : String)
    (lat now : ℚ) (hslo : assocFind rl.slo name = none) (hlat : 0 < lat) :
    sloOf rl name = 0 ∧
    ∀ m : InterfaceMetrics,
      assocFind (getOrCreateRL rl name now).interfaces name = some m →
      assocFind (postProcessP1 rl lat name now).interfaces name =
        some { m with
          sloViolationCounter := m.sloViolationCounter + 1
          latencyHistory := m.latencyHistory ++ [lat] } := by
  have hz : sloOf rl name = 0 := by
    unfold sloOf
    rw [hslo]
    rfl
  refine ⟨hz, ?_⟩
  intro m hm
  have hz1 : sloOf (getOrCreateRL rl name now) name = 0 := by
    unfold getOrCreateRL
    cases hfound : assocFind rl.interfaces name <;>
      simp [hfound, sloOf] at hz ⊢ <;> exact hz
  have hcl : postProcessM (sloOf (getOrCreateRL rl name now) name) lat m =
      { m with
        sloViolationCounter := m.sloViolationCounter + 1
        latencyHistory := m.latencyHistory ++ [lat] } := by
    rw [hz1]
    unfold postProcessM
    rw [if_neg (by exact not_le.2 hlat)]
  unfold postProcessP1
  rw [hm]
  simp only
  rw [hcl]
  exact assocFind_update_self _ _ _ (by rw [hm]; rfl)

/-- C10 witness: the theorem applied to the empty controller and the
unregistered method name B with latency 1. -/
theorem c10_demand_slo_zero_witness :
    sloOf { interfaces := [], slo := [] } "B" = 0 ∧
    assocFind
        (postProcessP1 { interfaces := [], slo := [] } 1 "B" 0).interfaces
        "B" =
      some { mDemand with
        sloViolationCounter := mDemand.sloViolationCounter + 1
        latencyHistory := mDemand.latencyHistory ++ [1] } := by
  have h := c10_demand_slo_zero { interfaces := [], slo := [] } "B" 1 0
    (by decide) (by decide)
  exact ⟨h.1, h.2 mDemand (by decide)⟩

/-! Claim C4. -/

/-- C4: evaluation of the interceptor at the failing inputs.  The claim
says any RPC whose metadata lacks the method key or carries it empty is
failed with invalid-argument without panicking.  Only the
metadata-entirely-absent case behaves that way (first three conjuncts).
When metadata IS present but has no method key (a nil `md["method"]`
slice), the source indexes `md["method"][0]` and PANICS; with the key
present but holding the empty string, `Allow("")` dereferences the nil
result of `getInterfaceMetrics` and panics as well.  Neither failure
creates a MethodState or invokes the handler, and the safe helper
`getMethodName`, which would have returned "", is never called by the
interceptor. -/
theorem c4_interceptor_eval :
    (unaryInterceptor rlC4 none 0 1 false).outcome =
      InterceptOutcome.errInvalidArgument ∧
    (unaryInterceptor rlC4 none 0 1 false).handlerInvoked = false ∧
    (unaryInterceptor rlC4 none 0 1 false).finalState = rlC4 ∧
    (unaryInterceptor rlC4
        (some { methodVals := [], timestampParsed := none }) 0 1
        false).outcome = InterceptOutcome.panicked ∧
    (unaryInterceptor rlC4
        (some { methodVals := [], timestampParsed := none }) 0 1
        false).finalState = rlC4 ∧
    (unaryInterceptor rlC4
        (some { methodVals := [""], timestampParsed := none }) 0 1
        false).outcome = InterceptOutcome.panicked ∧
    (unaryInterceptor rlC4
        (some { methodVals := [""], timestampParsed := none }) 0 1
        false).handlerInvoked = false ∧
    getMethodName (some { methodVals := [], timestampParsed := none }) =
      "" := by
  decide

/-! Claim C5. -/

/-- C5, counterexample: the claim says the interceptor uses the parsable
RFC-3339 timestamp metadata as start_time.  With method A admitted at
interception entry time 10 and handler return time 12, metadata carrying
a timestamp that parses to instant 5, the recorded latency is
12 - 10 = 2 — the claim's latency 12 - extractStartTime = 7 is not what
is appended to the reservoir. -/
theorem c5_counterexample :
    ((assocFind
        (unaryInterceptor rlC4
          (some { methodVals := ["A"], timestampParsed := some 5 }) 10 12
          false).finalState.interfaces "A").map
      InterfaceMetrics.latencyHistory) = some [2] ∧
    extractStartTime
        (some { methodVals := ["A"], timestampParsed := some 5 }) 10 = 5 ∧
    (12 : ℚ) - extractStartTime
        (some { methodVals := ["A"], timestampParsed := some 5 }) 10 ≠ 2 := by
  refine ⟨?_, rfl, by norm_num [extractStartTime]⟩
  norm_num [unaryInterceptor, rlC4, newTopDownRL, allowRL, assocFind,
    allowStep, refillStep, goTrunc, postProcessRL, postProcessM, sloOf,
    updateAssoc]

/-- C5, amended: the interceptor never consults the timestamp metadata —
its result is invariant under changing that entry, and `startTime` is
always the interception entry instant, so every admitted RPC records
latency = now2 - now via PostProcess, whatever the handler returned
(success or error is passed through unchanged in the outcome).
`extractStartTime` implements the claimed extraction but is dead code on
the interceptor path. -/
theorem c5_start_time (rl : TopDownRL) (mv : List String)
    (ts ts' : Option ℚ) (now now2 : ℚ) (he : Bool) (name : String)
    (rest : List String) (rl1 : TopDownRL)
    (hAllow : allowRL rl name now = some (rl1, true)) :
    unaryInterceptor rl (some { methodVals := mv, timestampParsed := ts })
        now now2 he =
      unaryInterceptor rl
        (some { methodVals := mv, timestampParsed := ts' }) now now2 he ∧
    ∃ m1 : InterfaceMetrics,
      assocFind rl1.interfaces name = some m1 ∧
      unaryInterceptor rl
          (some { methodVals := name :: rest, timestampParsed := ts }) now
          now2 he =
        { outcome := InterceptOutcome.completed he
          handlerInvoked := true
          finalState :=
            { rl1 with
              interfaces :=
                updateAssoc rl1.interfaces name
                  (postProcessM (sloOf rl1 name) (now2 - now) m1) } } := by
  constructor
  · rfl
  · unfold allowRL at hAllow
    cases hfind : assocFind rl.interfaces name with
    | none => rw [hfind] at hAllow; exact absurd hAllow (by simp)
    | some m =>
      rw [hfind] at hAllow
      simp only [Option.some.injEq, Prod.mk.injEq] at hAllow
      obtain ⟨hrl1, hok⟩ := hAllow
      refine ⟨(allowStep m now).1, ?_, ?_⟩
      · rw [← hrl1]
        exact assocFind_update_self _ _ _ (by rw [hfind]; rfl)
      · have hA : allowRL rl name now = some (rl1, true) := by
          unfold allowRL
          rw [hfind, ← hrl1, ← hok]
        have hfind1 : assocFind rl1.interfaces name =
            some (allowStep m now).1 := by
          rw [← hrl1]
          exact assocFind_update_self _ _ _ (by rw [hfind]; rfl)
        simp only [unaryInterceptor, postProcessRL, hA, hfind1]

/-- C5 witness: the amended theorem applied to the concrete admitted call
on `rlC4` (method A, entry time 10, return time 12, timestamp parsing to
5 versus none). -/
theorem c5_start_time_witness :
    unaryInterceptor rlC4
        (some { methodVals := ["A"], timestampParsed := some 5 }) 10 12
        true =
      unaryInterceptor rlC4
        (some { methodVals := ["A"], timestampParsed := none }) 10 12
        true :=
  (c5_start_time rlC4 ["A"] (some 5) none 10 12 true "A" []
    { interfaces :=
        [("A",
          { maxTokens := 2, tokens := 1, refillRate := 0, lastRefill := 0
            goodputCounter := 0, sloViolationCounter := 0
            latencyHistory := [], lastTailLatency95th := 0 })]
      slo := [("A", 100)] }
    (by norm_num [allowRL, rlC4, newTopDownRL, assocFind, allowStep,
      refillStep, goTrunc, updateAssoc])).1

/-! Claim C6. -/

/-- C6: semantics of `allow`.  Refill: under a monotone clock and a
non-negative rate, the post-refill token count is
min(tokens + floor(elapsed * refill_rate), max_tokens), with `last_refill`
advanced exactly when the computed refill is strictly positive and left
unchanged when it is 0.  Decision: the call returns true iff the
post-refill count is positive, in which case tokens drop by exactly 1;
otherwise tokens end at 0.  Scenario: with capacity 2 and refill rate 0,
three successive calls (at arbitrary instants) return true, true, false
and leave 0 tokens. -/
theorem c6_allow_semantics :
    (∀ (m : InterfaceMetrics) (now : ℚ), m.lastRefill ≤ now →
      0 ≤ m.refillRate → BucketInv m →
      (refillStep m now).tokens =
        min (m.tokens + ⌊(now - m.lastRefill) * (m.refillRate : ℚ)⌋)
          m.maxTokens ∧
      (0 < ⌊(now - m.lastRefill) * (m.refillRate : ℚ)⌋ →
        (refillStep m now).lastRefill = now) ∧
      (⌊(now - m.lastRefill) * (m.refillRate : ℚ)⌋ = 0 →
        (refillStep m now).lastRefill = m.lastRefill)) ∧
    (∀ (m : InterfaceMetrics) (now : ℚ), BucketInv m →
      ((allowStep m now).2 = true ↔ 0 < (refillStep m now).tokens) ∧
      ((allowStep m now).2 = true →
        (allowStep m now).1.tokens = (refillStep m now).tokens - 1) ∧
      ((allowStep m now).2 = false → (allowStep m now).1.tokens = 0)) ∧
    (∀ t1 t2 t3 : ℚ,
      (allowStep mBase t1).2 = true ∧
      (allowStep (allowStep mBase t1).1 t2).2 = true ∧
      (allowStep (allowStep (allowStep mBase t1).1 t2).1 t3).2 = false ∧
      (allowStep (allowStep (allowStep mBase t1).1 t2).1 t3).1.tokens
        = 0) := by
  refine ⟨?_, ?_, ?_⟩
  · intro m now helap hrate hinv
    have hprod : 0 ≤ (now - m.lastRefill) * (m.refillRate : ℚ) :=
      mul_nonneg (sub_nonneg.2 helap) (by exact_mod_cast hrate)
    have hfl : 0 ≤ ⌊(now - m.lastRefill) * (m.refillRate : ℚ)⌋ :=
      Int.floor_nonneg.2 hprod
    unfold refillStep
    rw [goTrunc_of_nonneg hprod]
    rcases hfl.eq_or_lt with hz | hpos
    · rw [if_neg (by omega)]
      refine ⟨?_, by omega, fun _ => rfl⟩
      rw [← hz]
      have := hinv.2
      omega
    · rw [if_pos hpos]
      exact ⟨rfl, fun _ => rfl, by omega⟩
  · intro m now hinv
    have hnn := refillStep_tokens_nonneg m now hinv
    unfold allowStep
    by_cases ht : 0 < (refillStep m now).tokens
    · simp [ht]
    · simp [ht]
      omega
  · intro t1 t2 t3
    have step : ∀ (m : InterfaceMetrics) (t : ℚ), m.refillRate = 0 →
        allowStep m t =
          if 0 < m.tokens then ({ m with tokens := m.tokens - 1 }, true)
          else (m, false) := by
      intro m t h
      unfold allowStep
      rw [refillStep_rate_zero m t h]
    have h1 : allowStep mBase t1 = ({ mBase with tokens := 1 }, true) := by
      rw [step mBase t1 rfl]
      norm_num [mBase]
    have h2 : allowStep { mBase with tokens := 1 } t2 =
        ({ mBase with tokens := 0 }, true) := by
      rw [step _ t2 rfl]
      norm_num [mBase]
    have h3 : allowStep { mBase with tokens := 0 } t3 =
        ({ mBase with tokens := 0 }, false) := by
      rw [step _ t3 rfl]
      norm_num [mBase]
    rw [h1]
    simp only
    rw [h2]
    simp only
    rw [h3]
    simp [mBase]

/-- C6 witness: the theorem applied at a concrete bucket (capacity 10,
3 tokens, rate 5, idle since instant 0, queried at instant 1) and the
concrete scenario instants 0, 0, 0. -/
theorem c6_allow_semantics_witness :
    (refillStep
        { maxTokens := 10, tokens := 3, refillRate := 5, lastRefill := 0
          goodputCounter := 0, sloViolationCounter := 0, latencyHistory := []
          lastTailLatency95th := 0 } 1).tokens =
      min (3 + ⌊((1 : ℚ) - 0) * ((5 : ℤ) : ℚ)⌋) 10 ∧
    (allowStep mBase 0).2 = true :=
  ⟨((c6_allow_semantics.1
      { maxTokens := 10, tokens := 3, refillRate := 5, lastRefill := 0
        goodputCounter := 0, sloViolationCounter := 0, latencyHistory := []
        lastTailLatency95th := 0 } 1 (by decide) (by decide)
      (by decide)).1),
    (c6_allow_semantics.2.2 0 0 0).1⟩
